import Mathlib

/-!
Shallow embedding of the walker-population update engine of
`src/src/main.rs` (a nannou generative-art simulation).

Modelling conventions:

* `f32` values are modelled exactly by `ℚ`.  Every arithmetic operation the
  claims touch (`+`, `-`, `*`, `/` by a nonzero constant, comparisons) is
  modelled by the exact rational operation; the counterexamples below are
  robust far beyond `f32` rounding error.
* `u8` / `u32` machine integers are modelled by `Nat` with explicit `% 256`
  (respectively explicit saturation at `2 ^ 32 - 1`) where the Rust code can
  overflow.  Where a Rust subtraction can underflow (`img_width - 1` on a
  zero-width image) the surrounding operation is modelled as `Option`-valued:
  `none` is the worker thread panicking (debug build: overflow panic; release
  build: the subsequent out-of-bounds `get_pixel` panic on a zero-area image).
* The per-thread random draws (`rand::thread_rng().gen_range(0..100)`) and the
  `f32` trigonometric values consumed by `Vec2::rotate` are passed in
  explicitly through a `Rand` record, one per spawned task: `turnRoll` /
  `divRoll` are the two `gen_range(0..100)` draws, and `turnCos`/`turnSin`
  (resp. `divCos`/`divSin`) stand for the cosine and sine of the rotation
  angle `angle * factor` computed inside the corresponding `Walker::turn`
  call.  This makes every definition a pure, executable function.
* The `mpsc` fan-in of `Walkers::update` is modelled by `TickOutcome`:
  `rx.recv()` only ever yields values that were sent, the original `tx`
  endpoint stays alive for the whole of `update`, and each worker's `send` is
  the final statement of its closure; hence a worker that panics sends
  nothing, the receive loop (which runs before any `join`) blocks forever,
  and that is the `hang` outcome.  The `fault` outcome models the
  `child.join().expect(..)` panic path.
-/

namespace Crystal

/-- One RGBA sample of the captured frame (`image::Rgba<u8>`); each channel is
a `u8`, i.e. a `Nat` below 256. -/
structure Pixel where
  r : Nat
  g : Nat
  b : Nat
  a : Nat
  deriving DecidableEq, Repr

/-- The previous frame (`nannou::image::RgbaImage`): dimensions plus the pixel
table.  `pix x y` is `img.get_pixel(x, y)` — `x` is the column, `y` the row
counted from the top. -/
structure Image where
  width : Nat
  height : Nat
  pix : Nat → Nat → Pixel

/-- `struct Walker` of the source: position, previous position and velocity in
center-origin canvas coordinates, plus the `dead` flag. -/
structure Walker where
  position : ℚ × ℚ
  prev_position : ℚ × ℚ
  velocity : ℚ × ℚ
  dead : Bool
  deriving DecidableEq, Repr

/-- `Walker::new`: `prev_position` starts equal to `position`, `dead := false`. -/
def Walker.new (position velocity : ℚ × ℚ) : Walker :=
  { position := position
    prev_position := position
    velocity := velocity
    dead := false }

/-- The random factor drawn inside `Walker::turn`:
`gen_range(0..100) as f32 / 100.0 * 2.0 - 1.0` for a draw `n < 100`. -/
def turnFactor (n : Nat) : ℚ :=
  (n : ℚ) / 100 * 2 - 1

/-- The rotation angle actually applied by `Walker::turn(angle)` when the
random draw is `n`: `angle * factor`. -/
def turnAngleOf (angle : ℚ) (n : Nat) : ℚ :=
  angle * turnFactor n

/-- `Vec2::rotate` by an angle whose cosine is `c` and sine is `s`:
the standard rotation matrix applied to `v`. -/
def rotateBy (c s : ℚ) (v : ℚ × ℚ) : ℚ × ℚ :=
  (v.1 * c - v.2 * s, v.1 * s + v.2 * c)

/-- `Walker::turn`: rotates `velocity` (only) by `angle * factor`; `c`, `s`
are the cosine and sine of that rotation angle (see module docstring). -/
def Walker.turn (w : Walker) (c s : ℚ) : Walker :=
  { w with velocity := rotateBy c s w.velocity }

/-- `Walker::next_position`: `position + velocity * speed`, componentwise. -/
def Walker.next_position (w : Walker) (speed : ℚ) : ℚ × ℚ :=
  (w.position.1 + w.velocity.1 * speed, w.position.2 + w.velocity.2 * speed)

/-- `Walker::update`: `prev_position := position; position := next_position(speed)`. -/
def Walker.update (w : Walker) (speed : ℚ) : Walker :=
  { w with
    prev_position := w.position
    position := w.next_position speed }

/-- The line segment emitted by `Walker::draw`: from `prev_position` to
`position` with the given stroke weight (color is the constant `WHITE`). -/
structure Segment where
  start : ℚ × ℚ
  stop : ℚ × ℚ
  weight : ℚ
  deriving DecidableEq, Repr

/-- `Walker::draw`: one segment from `prev_position` to `position`. -/
def Walker.draw (w : Walker) (weight : ℚ) : Segment :=
  { start := w.prev_position, stop := w.position, weight := weight }

/-- The `map` helper of the source, verbatim:
`(i - in_min) / (in_max - in_min) * (out_max - out_min) + out_min`. -/
def map (i in_min in_max out_min out_max : ℚ) : ℚ :=
  (i - in_min) / (in_max - in_min) * (out_max - out_min) + out_min

/-- Rust's `as u32` cast on an `f32`: truncation toward zero, saturating into
`[0, 2 ^ 32 - 1]` (negative values go to 0). -/
def f32AsU32 (v : ℚ) : Nat :=
  if v ≤ 0 then 0 else min (Int.toNat ⌊v⌋) (2 ^ 32 - 1)

/-- The sample coordinate computed in `Walkers::update` (lines 223–228) for a
walker at `pos`, as the `(x, y)` pair handed to `img.get_pixel`: `x` is the
column, `y` the row from the top.  Only meaningful for `imgW, imgH ≥ 1`; the
zero-area case is guarded at the call site (`walkerTask`). -/
def samplePos (width height : ℚ) (imgW imgH : Nat) (pos : ℚ × ℚ) : Nat × Nat :=
  let hwidth := width / 2
  let hheight := height / 2
  let pixel_x := f32AsU32 (map pos.1 (-hwidth) hwidth 0 (imgW : ℚ))
  let pixel_y := f32AsU32 (map pos.2 (-hheight) hheight 0 (imgH : ℚ))
  (min pixel_x (imgW - 1), imgH - 1 - min pixel_y (imgH - 1))

/-- The brightness proxy of line 231, with Rust release-build (wrapping) `u8`
arithmetic: `(pixel[0] + pixel[1] + pixel[3]) / 3` where each `+` wraps
modulo 256 and `/` is `u8` (truncating) division. -/
def avg (p : Pixel) : Nat :=
  ((p.r + p.g) % 256 + p.a) % 256 / 3

/-- The same expression under Rust debug-build semantics, where an overflowing
`u8` addition panics (`none`). -/
def avgChecked (p : Pixel) : Option Nat :=
  if p.r + p.g ≤ 255 then
    if p.r + p.g + p.a ≤ 255 then some ((p.r + p.g + p.a) / 3) else none
  else none

/-- The per-channel mean the spec asks for: `(r + g + a) / 3` computed without
overflow (exact integer mean, truncating division). -/
def specMean (p : Pixel) : Nat :=
  (p.r + p.g + p.a) / 3

/-- The toroidal wrap of `Walkers::update`, x part (lines 204–212): after
wrapping, `prev_position := position`. -/
def wrapX (width : ℚ) (w : Walker) : Walker :=
  let hwidth := width / 2
  if w.position.1 ≥ hwidth then
    let p := (w.position.1 - width, w.position.2)
    { w with position := p, prev_position := p }
  else if w.position.1 ≤ -hwidth then
    let p := (w.position.1 + width, w.position.2)
    { w with position := p, prev_position := p }
  else w

/-- The toroidal wrap, y part (lines 214–221). -/
def wrapY (height : ℚ) (w : Walker) : Walker :=
  let hheight := height / 2
  if w.position.2 ≥ hheight then
    let p := (w.position.1, w.position.2 - height)
    { w with position := p, prev_position := p }
  else if w.position.2 ≤ -hheight then
    let p := (w.position.1, w.position.2 + height)
    { w with position := p, prev_position := p }
  else w

/-- The full wrap step, x then y, exactly as in the source. -/
def wrap (width height : ℚ) (w : Walker) : Walker :=
  wrapY height (wrapX width w)

/-- `struct Walkers`: the population plus the tick parameters. -/
structure Walkers where
  walkers : List Walker
  turn_chance : ℚ
  turn_angle : ℚ
  division_chance : ℚ
  division_angle : ℚ
  speed : ℚ
  width : ℚ
  height : ℚ
  kill_threshold : Nat
  line_weight : ℚ

/-- `Walkers::new` with its hard-coded parameters (two seed walkers,
`turn_chance 0.01`, `division_chance 0`, `kill_threshold 150`). -/
def Walkers.new (speed width height : ℚ) : Walkers :=
  { walkers := [Walker.new (0, height * (-1/2)) (0, 1),
                Walker.new (width * (-1/2), 0) (1, 0)]
    turn_chance := 1/100
    turn_angle := 10471975512 / 10000000000
    division_chance := 0
    division_angle := 7853981634 / 10000000000
    speed := speed
    width := width
    height := height
    kill_threshold := 150
    line_weight := 1 }

/-- The random draws consumed by one spawned worker task, plus the
trigonometric values of the two potential `turn` calls (module docstring). -/
structure Rand where
  turnRoll : Nat
  turnCos : ℚ
  turnSin : ℚ
  divRoll : Nat
  divCos : ℚ
  divSin : ℚ

/-- The roll value `gen_range(0..100) as f32 / 100.0` for a draw `n`. -/
def rollValue (n : Nat) : ℚ :=
  (n : ℚ) / 100

/-- Lines 188–191: the optional turn of the walker itself. -/
def taskTurned (ws : Walkers) (r : Rand) (w0 : Walker) : Walker :=
  if rollValue r.turnRoll < ws.turn_chance then w0.turn r.turnCos r.turnSin else w0

/-- Lines 194–199: the optional division — the child is cloned from the
(possibly turned) walker before the position advance, then independently
turned by `division_angle`. -/
def taskChildren (ws : Walkers) (r : Rand) (w1 : Walker) : List Walker :=
  if rollValue r.divRoll < ws.division_chance then [w1.turn r.divCos r.divSin] else []

/-- Lines 202–221: position advance followed by the toroidal wrap. -/
def taskMoved (ws : Walkers) (w1 : Walker) : Walker :=
  wrap ws.width ws.height (w1.update ws.speed)

/-- Lines 223–235: frame-feedback sampling and the kill check. -/
def taskSampled (ws : Walkers) (img : Image) (w3 : Walker) : Walker :=
  let c := samplePos ws.width ws.height img.width img.height w3.position
  if ws.kill_threshold ≤ avg (img.pix c.1 c.2) then { w3 with dead := true } else w3

/-- The body of one worker thread of `Walkers::update` (lines 183–240), acting
on a private clone `w0` of one walker: optional turn, optional division
(child cloned and independently turned, pushed first), position advance,
toroidal wrap, frame-feedback sampling and the kill check; the result is the
`new_walkers` vector sent back on the channel.  `none` models the thread
panicking on a zero-area image (debug: `img_width - 1` underflows `u32`;
release: `get_pixel` is out of bounds on an empty image), before anything is
sent. -/
def walkerTask (ws : Walkers) (img : Image) (r : Rand) (w0 : Walker) :
    Option (List Walker) :=
  if 0 < img.width ∧ 0 < img.height then
    some (taskChildren ws r (taskTurned ws r w0) ++
          [taskSampled ws img (taskMoved ws (taskTurned ws r w0))])
  else
    none

/-- Runs every dispatched task in order, collecting one result group per task;
`none` as soon as some task panics. -/
def taskGroups (ws : Walkers) (img : Image) :
    List (Walker × Rand) → Option (List (List Walker))
  | [] => some []
  | (w, r) :: rest =>
    match walkerTask ws img r w, taskGroups ws img rest with
    | some g, some gs => some (g :: gs)
    | _, _ => none

/-- The filter-and-install step (lines 245–255): each received group is
filtered of its dead walkers and appended; the concatenation becomes the new
population.  `none` when some worker panicked (in the real code `update` then
never returns, see `runTick`). -/
def Walkers.updateModel (ws : Walkers) (img : Image) (rs : List Rand) :
    Option Walkers :=
  match taskGroups ws img (ws.walkers.zip rs) with
  | some gs =>
    some { ws with walkers := gs.flatMap (fun g => g.filter (fun w => !w.dead)) }
  | none => none

/-- `Walkers::draw`: one segment per walker, in population order. -/
def Walkers.drawAll (ws : Walkers) : List Segment :=
  ws.walkers.map (fun w => w.draw ws.line_weight)

/-- Observable outcome of one `Walkers::update` call. -/
inductive TickOutcome where
  /-- All tasks completed, the filtered population was installed. -/
  | installed (walkers : List Walker)
  /-- Some worker panicked before its `send`; since the original `tx` lives
  until `update` returns and the `join`s only run after all `recv`s, the
  receive loop blocks forever. -/
  | hang
  /-- The `child.join().expect("oops! the child thread panicked")` panic —
  the path the source intends for propagating a worker failure. -/
  | fault
  deriving DecidableEq, Repr

/-- One whole `Walkers::update` call, as observed by the caller. -/
def runTick (ws : Walkers) (img : Image) (rs : List Rand) : TickOutcome :=
  match ws.updateModel img rs with
  | some ws2 => .installed ws2.walkers
  | none => .hang

/-- Number of division events triggered in a tick (the `div_value <
division_chance` branches taken). -/
def divisionsTriggered (ws : Walkers) (rs : List Rand) : Nat :=
  ((ws.walkers.zip rs).filter
    (fun p => decide (rollValue p.2.divRoll < ws.division_chance))).length

/-- Number of collected walkers whose `dead` flag is set at collection time. -/
def deathsAtCollection (ws : Walkers) (img : Image) (rs : List Rand) : Nat :=
  match taskGroups ws img (ws.walkers.zip rs) with
  | some gs => (gs.flatMap id).countP (fun w => w.dead)
  | none => 0

/-- Test fixture: a `w × h` frame whose pixels are all transparent black. -/
def blackImage (w h : Nat) : Image :=
  { width := w, height := h, pix := fun _ _ => ⟨0, 0, 0, 0⟩ }

/-- Test fixture: a `w × h` frame whose pixels all have red 255 and the other
channels 0 (the wrapped brightness proxy of such a pixel is 85, the largest
value it can take). -/
def redImage (w h : Nat) : Image :=
  { width := w, height := h, pix := fun _ _ => ⟨255, 0, 0, 0⟩ }

/-- Test fixture: a fixed draw record (rolls 0, rotation by angle 0). -/
def randA : Rand :=
  { turnRoll := 0, turnCos := 1, turnSin := 0, divRoll := 0, divCos := 1, divSin := 0 }

/-- Test fixture: a single walker at the canvas center heading `+y`, with
turning and division disabled, on a `100 × 100` canvas at speed 1. -/
def wsSingle : Walkers :=
  { walkers := [Walker.new (0, 0) (0, 1)]
    turn_chance := 0
    turn_angle := 1
    division_chance := 0
    division_angle := 1
    speed := 1
    width := 100
    height := 100
    kill_threshold := 150
    line_weight := 1 }

/-- Test fixture: like `wsSingle` but with division certain and the kill
threshold lowered to 85 so that the wrapped brightness proxy can reach it. -/
def wsDivide : Walkers :=
  { wsSingle with division_chance := 1, kill_threshold := 85 }

/-- Modelled from the spec's words (§4.2e), for comparison with `samplePos`:
`pixel_x = round(map(position.x, -width/2, width/2, 0, buf_width))` (round to
nearest), `col = clamp(pixel_x, 0, buf_width - 1)`, and the flipped
`row = buf_height - 1 - clamp(pixel_y, 0, buf_height - 1)`; returned as the
`(col, row)` pair handed to `get_pixel`. -/
def specSamplePos (width height : ℚ) (imgW imgH : Nat) (pos : ℚ × ℚ) : Nat × Nat :=
  let pixel_x : ℤ := round (map pos.1 (-(width / 2)) (width / 2) 0 (imgW : ℚ))
  let pixel_y : ℤ := round (map pos.2 (-(height / 2)) (height / 2) 0 (imgH : ℚ))
  let col := Int.toNat (max 0 (min pixel_x ((imgW : ℤ) - 1)))
  let rowClamp := Int.toNat (max 0 (min pixel_y ((imgH : ℤ) - 1)))
  (col, imgH - 1 - rowClamp)

/-- The spec formula amended to what the code computes: `as u32` truncation
(floor, once clamped below at 0, which coincides with truncation toward zero)
in place of round-to-nearest. -/
def truncSamplePos (width height : ℚ) (imgW imgH : Nat) (pos : ℚ × ℚ) : Nat × Nat :=
  let pixel_x : ℤ := ⌊map pos.1 (-(width / 2)) (width / 2) 0 (imgW : ℚ)⌋
  let pixel_y : ℤ := ⌊map pos.2 (-(height / 2)) (height / 2) 0 (imgH : ℚ)⌋
  let col := Int.toNat (max 0 (min pixel_x ((imgW : ℤ) - 1)))
  let rowClamp := Int.toNat (max 0 (min pixel_y ((imgH : ℤ) - 1)))
  (col, imgH - 1 - rowClamp)

/-! ### Helper lemmas -/

theorem clampCast (v : ℚ) (n : Nat) (h1 : 1 ≤ n) (h2 : n ≤ 2 ^ 32) :
    min (f32AsU32 v) (n - 1) = Int.toNat (max 0 (min ⌊v⌋ ((n : ℤ) - 1))) := by
  unfold f32AsU32
  by_cases hv : v ≤ 0
  · rw [if_pos hv]
    have hfl : ⌊v⌋ ≤ 0 := Int.floor_nonpos hv
    omega
  · rw [if_neg hv]
    have hfl : (0 : ℤ) ≤ ⌊v⌋ := Int.le_floor.mpr (by push_cast; linarith [not_le.mp hv])
    omega

theorem turn_dead (w : Walker) (c s : ℚ) : (w.turn c s).dead = w.dead := rfl

theorem taskTurned_dead (ws : Walkers) (r : Rand) (w : Walker) :
    (taskTurned ws r w).dead = w.dead := by
  unfold taskTurned
  split <;> rfl

theorem rollValue_nonneg (n : Nat) : 0 ≤ rollValue n := by
  unfold rollValue
  positivity

theorem wrapX_high (width : ℚ) (v : Walker) (hv : v.position.1 ≥ width / 2) :
    wrapX width v =
      { v with position := (v.position.1 - width, v.position.2),
               prev_position := (v.position.1 - width, v.position.2) } := by
  simp only [wrapX]
  rw [if_pos hv]

theorem wrapX_low (width : ℚ) (v : Walker) (hv1 : ¬ v.position.1 ≥ width / 2)
    (hv2 : v.position.1 ≤ -(width / 2)) :
    wrapX width v =
      { v with position := (v.position.1 + width, v.position.2),
               prev_position := (v.position.1 + width, v.position.2) } := by
  simp only [wrapX]
  rw [if_neg hv1, if_pos hv2]

theorem wrapX_mid (width : ℚ) (v : Walker) (hv1 : ¬ v.position.1 ≥ width / 2)
    (hv2 : ¬ v.position.1 ≤ -(width / 2)) : wrapX width v = v := by
  simp only [wrapX]
  rw [if_neg hv1, if_neg hv2]

theorem wrapY_high (height : ℚ) (v : Walker) (hv : v.position.2 ≥ height / 2) :
    wrapY height v =
      { v with position := (v.position.1, v.position.2 - height),
               prev_position := (v.position.1, v.position.2 - height) } := by
  simp only [wrapY]
  rw [if_pos hv]

theorem wrapY_low (height : ℚ) (v : Walker) (hv1 : ¬ v.position.2 ≥ height / 2)
    (hv2 : v.position.2 ≤ -(height / 2)) :
    wrapY height v =
      { v with position := (v.position.1, v.position.2 + height),
               prev_position := (v.position.1, v.position.2 + height) } := by
  simp only [wrapY]
  rw [if_neg hv1, if_pos hv2]

theorem wrapY_mid (height : ℚ) (v : Walker) (hv1 : ¬ v.position.2 ≥ height / 2)
    (hv2 : ¬ v.position.2 ≤ -(height / 2)) : wrapY height v = v := by
  simp only [wrapY]
  rw [if_neg hv1, if_neg hv2]

theorem wrapY_fst (height : ℚ) (v : Walker) :
    (wrapY height v).position.1 = v.position.1 := by
  simp only [wrapY]
  split_ifs <;> rfl

theorem wrapX_snd (width : ℚ) (v : Walker) :
    (wrapX width v).position.2 = v.position.2 := by
  simp only [wrapX]
  split_ifs <;> rfl

theorem wrapY_keeps_prev_eq (height : ℚ) (v : Walker)
    (hv : v.prev_position = v.position) :
    (wrapY height v).prev_position = (wrapY height v).position := by
  simp only [wrapY]
  split_ifs <;> simp [hv]

theorem wrapX_dead (width : ℚ) (v : Walker) : (wrapX width v).dead = v.dead := by
  simp only [wrapX]
  split_ifs <;> rfl

theorem wrapY_dead (height : ℚ) (v : Walker) : (wrapY height v).dead = v.dead := by
  simp only [wrapY]
  split_ifs <;> rfl

theorem taskChildren_length (ws : Walkers) (r : Rand) (w1 : Walker) :
    (taskChildren ws r w1).length =
      if rollValue r.divRoll < ws.division_chance then 1 else 0 := by
  unfold taskChildren
  split <;> rfl

theorem filter_alive_length (g : List Walker) :
    (g.filter (fun w => !w.dead)).length + g.countP (fun w => w.dead) = g.length := by
  induction g with
  | nil => rfl
  | cons w g ih =>
    cases hw : w.dead <;> simp [List.filter_cons, List.countP_cons, hw] <;> omega

theorem walkerTask_eq (ws : Walkers) (img : Image) (r : Rand) (w0 : Walker)
    (himg : 0 < img.width ∧ 0 < img.height) :
    walkerTask ws img r w0 =
      some (taskChildren ws r (taskTurned ws r w0) ++
            [taskSampled ws img (taskMoved ws (taskTurned ws r w0))]) := by
  unfold walkerTask
  rw [if_pos himg]

theorem walkerTask_group_length (ws : Walkers) (img : Image) (r : Rand) (w0 : Walker)
    (g : List Walker) (hg : walkerTask ws img r w0 = some g) :
    g.length = (if rollValue r.divRoll < ws.division_chance then 1 else 0) + 1 := by
  unfold walkerTask at hg
  split at hg
  · cases hg
    simp [taskChildren_length]
  · cases hg

theorem taskGroups_count (ws : Walkers) (img : Image) :
    ∀ (L : List (Walker × Rand)) (gs : List (List Walker)),
      taskGroups ws img L = some gs →
      (gs.flatMap (fun g => g.filter (fun w => !w.dead))).length
          + (gs.flatMap id).countP (fun w => w.dead)
        = L.length +
          (L.filter (fun p => decide (rollValue p.2.divRoll < ws.division_chance))).length
  | [], gs, h => by
    cases h
    simp
  | (w, r) :: L, gs, h => by
    unfold taskGroups at h
    cases hg : walkerTask ws img r w with
    | none => rw [hg] at h; cases h
    | some g =>
      rw [hg] at h
      cases htg : taskGroups ws img L with
      | none => rw [htg] at h; cases h
      | some gs2 =>
        rw [htg] at h
        cases h
        have h1 := filter_alive_length g
        have h2 := walkerTask_group_length ws img r w g hg
        have h3 := taskGroups_count ws img L gs2 htg
        rw [List.flatMap_cons, List.flatMap_cons, List.length_append,
            List.countP_append, List.filter_cons, List.length_cons, id_eq]
        by_cases hdiv : rollValue r.divRoll < ws.division_chance
        · rw [if_pos hdiv] at h2
          rw [if_pos (by simp [hdiv])]
          rw [List.length_cons]
          omega
        · rw [if_neg hdiv] at h2
          rw [if_neg (by simp [hdiv])]
          omega

theorem taskGroups_none (ws : Walkers) (img : Image) :
    ∀ L : List (Walker × Rand),
      (∃ p ∈ L, walkerTask ws img p.2 p.1 = none) → taskGroups ws img L = none
  | [], h => by simp at h
  | (w, r) :: L, h => by
    unfold taskGroups
    rcases h with ⟨p, hp, hfail⟩
    rcases List.mem_cons.mp hp with h1 | h1
    · subst h1
      rw [hfail]
    · have := taskGroups_none ws img L ⟨p, h1, hfail⟩
      rw [this]
      cases walkerTask ws img r w <;> rfl

theorem mem_installed_not_dead (gs : List (List Walker)) (w : Walker)
    (hw : w ∈ gs.flatMap (fun g => g.filter (fun x => !x.dead))) : w.dead = false := by
  simp only [List.mem_flatMap, List.mem_filter, Bool.not_eq_true'] at hw
  rcases hw with ⟨g, _, _, hdead⟩
  exact hdead

/-! ### Claim theorems -/

/-- Claim C1: the per-agent task is claimed to compute the exact mean of the
sampled pixel's red, green and alpha channels, kill exactly when that mean
reaches `kill_threshold`, and never fail.  The code instead sums the `u8`
channels in `u8` arithmetic: on a pure-white pixel the wrapping (release
build) value is 84 rather than the true mean 255, the checked (debug build)
computation panics, the pixel is not killed although its mean is far above
the threshold 150 — and in fact the wrapped proxy can never reach the
constructed threshold 150 for any pixel at all. -/
theorem brightness_overflow_bug :
    avg ⟨255, 255, 255, 255⟩ = 84 ∧
    specMean ⟨255, 255, 255, 255⟩ = 255 ∧
    avgChecked ⟨255, 255, 255, 255⟩ = none ∧
    ¬ 150 ≤ avg ⟨255, 255, 255, 255⟩ ∧
    150 ≤ specMean ⟨255, 255, 255, 255⟩ ∧
    (Walkers.new 1 100 100).kill_threshold = 150 ∧
    ∀ p : Pixel, avg p < (Walkers.new 1 100 100).kill_threshold := by
  refine ⟨rfl, rfl, rfl, by decide, by decide, rfl, ?_⟩
  intro p
  show avg p < 150
  unfold avg
  omega

/-- Claim C7: `turn(limit)` draws a factor in `[-1, 1]`, the applied rotation
angle `limit * factor` lies in `[-limit, limit]`, and the turn mutates only
the velocity, rotating (norm-preserving) rather than rescaling it.  `c`, `s`
are the cosine and sine of the applied rotation angle, so `c ^ 2 + s ^ 2 = 1`. -/
theorem turn_bounded (limit c s : ℚ) (n : Nat) (w : Walker)
    (hlimit : 0 ≤ limit) (hn : n < 100) (hcs : c ^ 2 + s ^ 2 = 1) :
    (-1 ≤ turnFactor n ∧ turnFactor n ≤ 1) ∧
    (-limit ≤ turnAngleOf limit n ∧ turnAngleOf limit n ≤ limit) ∧
    (w.turn c s).position = w.position ∧
    (w.turn c s).prev_position = w.prev_position ∧
    (w.turn c s).dead = w.dead ∧
    (w.turn c s).velocity.1 ^ 2 + (w.turn c s).velocity.2 ^ 2
      = w.velocity.1 ^ 2 + w.velocity.2 ^ 2 := by
  have hn99 : (n : ℚ) ≤ 99 := by exact_mod_cast Nat.lt_succ_iff.mp hn
  have hn0 : (0 : ℚ) ≤ (n : ℚ) := Nat.cast_nonneg n
  have hf : -1 ≤ turnFactor n ∧ turnFactor n ≤ 1 := by
    unfold turnFactor
    constructor <;> nlinarith
  refine ⟨hf, ?_, rfl, rfl, rfl, ?_⟩
  · unfold turnAngleOf
    constructor <;> nlinarith [hf.1, hf.2]
  · show (rotateBy c s w.velocity).1 ^ 2 + (rotateBy c s w.velocity).2 ^ 2 = _
    unfold rotateBy
    linear_combination (w.velocity.1 ^ 2 + w.velocity.2 ^ 2) * hcs

/-- Claim C7 witness: `turn_bounded` at `limit = 1`, draw `n = 3`,
`(c, s) = (1, 0)` and a concrete walker. -/
theorem turn_bounded_witness :
    ((0 : ℚ) ≤ 1 ∧ 3 < 100 ∧ (1 : ℚ) ^ 2 + (0 : ℚ) ^ 2 = 1) ∧
    ((-1 ≤ turnFactor 3 ∧ turnFactor 3 ≤ 1) ∧
     (-(1 : ℚ) ≤ turnAngleOf 1 3 ∧ turnAngleOf 1 3 ≤ 1) ∧
     ((Walker.new (0, 0) (0, 1)).turn 1 0).position = (Walker.new (0, 0) (0, 1)).position ∧
     ((Walker.new (0, 0) (0, 1)).turn 1 0).prev_position
       = (Walker.new (0, 0) (0, 1)).prev_position ∧
     ((Walker.new (0, 0) (0, 1)).turn 1 0).dead = (Walker.new (0, 0) (0, 1)).dead ∧
     ((Walker.new (0, 0) (0, 1)).turn 1 0).velocity.1 ^ 2
         + ((Walker.new (0, 0) (0, 1)).turn 1 0).velocity.2 ^ 2
       = (Walker.new (0, 0) (0, 1)).velocity.1 ^ 2
         + (Walker.new (0, 0) (0, 1)).velocity.2 ^ 2) :=
  ⟨⟨by norm_num, by norm_num, by norm_num⟩,
   turn_bounded 1 1 0 3 (Walker.new (0, 0) (0, 1))
     (by norm_num) (by norm_num) (by norm_num)⟩

/-- Claim C10: every turn/division roll is one of the 100 values
`0, 1/100, …, 99/100`, the factor drawn in `turn` is one of the 100 values
`-1, -1 + 2/100, …, 49/50` and never reaches `1`, and the effective
probability of a roll landing below any cutoff `p` is a multiple of `1/100`. -/
theorem rolls_quantized (n : Nat) (p : ℚ) (hn : n < 100) :
    rollValue n ∈ Finset.image (fun k : Nat => (k : ℚ) / 100) (Finset.range 100) ∧
    turnFactor n ∈
      Finset.image (fun k : Nat => -1 + (k : ℚ) * (2 / 100)) (Finset.range 100) ∧
    turnFactor n < 1 ∧
    turnFactor n ≤ 49 / 50 ∧
    ∃ k : Nat, k ≤ 100 ∧
      ((Finset.filter (fun m => rollValue m < p) (Finset.range 100)).card : ℚ) / 100
        = (k : ℚ) / 100 := by
  have hn99 : (n : ℚ) ≤ 99 := by exact_mod_cast Nat.lt_succ_iff.mp hn
  refine ⟨?_, ?_, ?_, ?_, ?_⟩
  · exact Finset.mem_image.mpr ⟨n, Finset.mem_range.mpr hn, rfl⟩
  · refine Finset.mem_image.mpr ⟨n, Finset.mem_range.mpr hn, ?_⟩
    unfold turnFactor
    ring
  · unfold turnFactor
    nlinarith
  · unfold turnFactor
    nlinarith
  · exact ⟨(Finset.filter (fun m => rollValue m < p) (Finset.range 100)).card,
      le_trans (Finset.card_filter_le _ _) (le_of_eq (Finset.card_range 100)), rfl⟩

/-- Claim C10 witness: `rolls_quantized` at draw `n = 57` and cutoff `p = 1/2`. -/
theorem rolls_quantized_witness :
    57 < 100 ∧
    (rollValue 57 ∈ Finset.image (fun k : Nat => (k : ℚ) / 100) (Finset.range 100) ∧
     turnFactor 57 ∈
       Finset.image (fun k : Nat => -1 + (k : ℚ) * (2 / 100)) (Finset.range 100) ∧
     turnFactor 57 < 1 ∧
     turnFactor 57 ≤ 49 / 50 ∧
     ∃ k : Nat, k ≤ 100 ∧
       ((Finset.filter (fun m => rollValue m < (1 : ℚ) / 2)
           (Finset.range 100)).card : ℚ) / 100 = (k : ℚ) / 100) :=
  ⟨by norm_num, rolls_quantized 57 (1 / 2) (by norm_num)⟩

/-- Claim C4: a walker at `width/2 + ε` after the advance is wrapped to
`-width/2 + ε` (and symmetrically at the other three boundaries), and after
any wrap `prev_position` equals `position`, so the drawn trail segment of a
wrapped walker is degenerate. -/
theorem wrap_boundary (width height ε : ℚ) (w : Walker)
    (hw : 0 < width) (hh : 0 < height) (hε : 0 ≤ ε) :
    (w.position.1 = width / 2 + ε →
      (wrap width height w).position.1 = -(width / 2) + ε ∧
      (wrap width height w).prev_position = (wrap width height w).position) ∧
    (w.position.1 = -(width / 2) - ε →
      (wrap width height w).position.1 = width / 2 - ε ∧
      (wrap width height w).prev_position = (wrap width height w).position) ∧
    (w.position.2 = height / 2 + ε →
      (wrap width height w).position.2 = -(height / 2) + ε ∧
      (wrap width height w).prev_position = (wrap width height w).position) ∧
    (w.position.2 = -(height / 2) - ε →
      (wrap width height w).position.2 = height / 2 - ε ∧
      (wrap width height w).prev_position = (wrap width height w).position) ∧
    (∀ (weight : ℚ) (v : Walker), v.prev_position = v.position →
      (v.draw weight).start = (v.draw weight).stop) := by
  refine ⟨?_, ?_, ?_, ?_, ?_⟩
  · intro hx
    have hcond : w.position.1 ≥ width / 2 := by rw [hx]; linarith
    unfold wrap
    rw [wrapX_high width w hcond]
    constructor
    · rw [wrapY_fst]
      show w.position.1 - width = _
      rw [hx]; ring
    · exact wrapY_keeps_prev_eq height _ rfl
  · intro hx
    have hc1 : ¬ w.position.1 ≥ width / 2 := by
      rw [hx]; intro hcon; linarith
    have hc2 : w.position.1 ≤ -(width / 2) := by rw [hx]; linarith
    unfold wrap
    rw [wrapX_low width w hc1 hc2]
    constructor
    · rw [wrapY_fst]
      show w.position.1 + width = _
      rw [hx]; ring
    · exact wrapY_keeps_prev_eq height _ rfl
  · intro hy
    have hcond : (wrapX width w).position.2 ≥ height / 2 := by
      rw [wrapX_snd, hy]; linarith
    unfold wrap
    rw [wrapY_high height _ hcond]
    refine ⟨?_, rfl⟩
    show (wrapX width w).position.2 - height = _
    rw [wrapX_snd, hy]; ring
  · intro hy
    have hc1 : ¬ (wrapX width w).position.2 ≥ height / 2 := by
      rw [wrapX_snd, hy]; intro hcon; linarith
    have hc2 : (wrapX width w).position.2 ≤ -(height / 2) := by
      rw [wrapX_snd, hy]; linarith
    unfold wrap
    rw [wrapY_low height _ hc1 hc2]
    refine ⟨?_, rfl⟩
    show (wrapX width w).position.2 + height = _
    rw [wrapX_snd, hy]; ring
  · intro weight v hv
    simp [Walker.draw, hv]

/-- Claim C3 counterexample: at position `(0.9, 0)` on a `100 × 100` canvas
with a `100 × 100` buffer, the mapped value is `50.9`; the spec's
round-to-nearest formula gives column 51 while the code's `as u32`
truncation gives column 50. -/
theorem sample_round_counterexample :
    specSamplePos 100 100 100 100 (9 / 10, 0) = (51, 49) ∧
    samplePos 100 100 100 100 (9 / 10, 0) = (50, 49) ∧
    specSamplePos 100 100 100 100 (9 / 10, 0) ≠ samplePos 100 100 100 100 (9 / 10, 0) := by
  refine ⟨?_, ?_, ?_⟩
  · norm_num [specSamplePos, map, round_eq]
    decide
  · norm_num [samplePos, f32AsU32, map]
    decide
  · norm_num [specSamplePos, samplePos, f32AsU32, map, round_eq]
    decide

/-- Claim C3 amended: for every position and every buffer with dimensions in
`[1, 2 ^ 32]`, the sampled coordinate is the pure function
`col = clamp(trunc(map(x, -w/2, w/2, 0, bufW)), 0, bufW - 1)`,
`row = bufH - 1 - clamp(trunc(map(y, -h/2, h/2, 0, bufH)), 0, bufH - 1)` —
truncation (`as u32`) in place of the claimed round-to-nearest; the concrete
example of the claim stands: position `(0, 0)` on a `100 × 100` canvas with a
`100 × 100` buffer samples column 50, row 49. -/
theorem sample_trunc_determinism (width height : ℚ) (imgW imgH : Nat) (pos : ℚ × ℚ)
    (hW1 : 1 ≤ imgW) (hW2 : imgW ≤ 2 ^ 32) (hH1 : 1 ≤ imgH) (hH2 : imgH ≤ 2 ^ 32) :
    samplePos width height imgW imgH pos = truncSamplePos width height imgW imgH pos ∧
    samplePos 100 100 100 100 (0, 0) = (50, 49) := by
  constructor
  · have hx := clampCast (map pos.1 (-(width / 2)) (width / 2) 0 (imgW : ℚ)) imgW hW1 hW2
    have hy := clampCast (map pos.2 (-(height / 2)) (height / 2) 0 (imgH : ℚ)) imgH hH1 hH2
    simp only [samplePos, truncSamplePos]
    rw [Prod.mk.injEq]
    exact ⟨hx, by rw [hy]⟩
  · norm_num [samplePos, f32AsU32, map]
    decide

/-- Claim C3 witness: `sample_trunc_determinism` on the `100 × 100` buffer at
position `(0.9, 0)`. -/
theorem sample_trunc_determinism_witness :
    (1 ≤ 100 ∧ 100 ≤ 2 ^ 32) ∧
    (samplePos 100 100 100 100 (9 / 10, 0) = truncSamplePos 100 100 100 100 (9 / 10, 0) ∧
     samplePos 100 100 100 100 (0, 0) = (50, 49)) :=
  ⟨⟨by norm_num, by norm_num⟩,
   sample_trunc_determinism 100 100 100 100 (9 / 10, 0)
     (by norm_num) (by norm_num) (by norm_num) (by norm_num)⟩

/-- Claim C4 witness: `wrap_boundary` on a `100 × 100` canvas with `ε = 1`
and a walker at `x = 51 = 100/2 + 1`; the first boundary case fires and
yields `x = -49 = -(100/2) + 1`. -/
theorem wrap_boundary_witness :
    ((0 : ℚ) < 100 ∧ (0 : ℚ) ≤ 1 ∧
      (Walker.mk (51, 0) (0, 0) (0, 1) false).position.1 = 100 / 2 + 1) ∧
    ((wrap 100 100 (Walker.mk (51, 0) (0, 0) (0, 1) false)).position.1
        = -(100 / 2) + 1 ∧
     (wrap 100 100 (Walker.mk (51, 0) (0, 0) (0, 1) false)).prev_position
        = (wrap 100 100 (Walker.mk (51, 0) (0, 0) (0, 1) false)).position) :=
  ⟨⟨by norm_num, by norm_num, by norm_num⟩,
   (wrap_boundary 100 100 1 (Walker.mk (51, 0) (0, 0) (0, 1) false)
       (by norm_num) (by norm_num) (by norm_num)).1 (by norm_num)⟩

/-- Claim C5: whenever a tick completes (every task returned), the post-tick
population size equals the pre-tick size plus the divisions triggered minus
the number of walkers whose `dead` flag was set at collection time, and the
installed list contains no dead walker. -/
theorem tick_population_count (ws : Walkers) (img : Image) (rs : List Rand)
    (ws2 : Walkers) (hlen : ws.walkers.length ≤ rs.length)
    (hupd : ws.updateModel img rs = some ws2) :
    (ws2.walkers.length : ℤ)
      = ws.walkers.length + divisionsTriggered ws rs - deathsAtCollection ws img rs ∧
    ∀ w ∈ ws2.walkers, w.dead = false := by
  unfold Walkers.updateModel at hupd
  cases htg : taskGroups ws img (ws.walkers.zip rs) with
  | none => rw [htg] at hupd; cases hupd
  | some gs =>
    rw [htg] at hupd
    cases hupd
    constructor
    · have hcount := taskGroups_count ws img (ws.walkers.zip rs) gs htg
      have hzip : (ws.walkers.zip rs).length = ws.walkers.length := by
        rw [List.length_zip]; omega
      have hd : deathsAtCollection ws img rs
          = (gs.flatMap id).countP (fun w => w.dead) := by
        unfold deathsAtCollection
        rw [htg]
      show ((gs.flatMap (fun g => g.filter (fun w => !w.dead))).length : ℤ) = _
      unfold divisionsTriggered
      rw [hd]
      omega
    · intro w hw
      exact mem_installed_not_dead gs w hw

/-- Claim C5 witness: `tick_population_count` on a one-walker population and a
`100 × 100` black frame: one task, no division, no death, population stays
at one live walker. -/
theorem tick_population_count_witness :
    (wsSingle.walkers.length ≤ [randA].length ∧
     wsSingle.updateModel (blackImage 100 100) [randA]
       = some { wsSingle with walkers := [⟨(0, 1), (0, 0), (0, 1), false⟩] }) ∧
    ((({ wsSingle with
          walkers := [⟨(0, 1), (0, 0), (0, 1), false⟩] } : Walkers).walkers.length : ℤ)
       = wsSingle.walkers.length + divisionsTriggered wsSingle [randA]
           - deathsAtCollection wsSingle (blackImage 100 100) [randA] ∧
     ∀ w ∈ ({ wsSingle with
          walkers := [⟨(0, 1), (0, 0), (0, 1), false⟩] } : Walkers).walkers,
       w.dead = false) := by
  have h1 : wsSingle.walkers.length ≤ [randA].length := by
    simp [wsSingle]
  have h2 : wsSingle.updateModel (blackImage 100 100) [randA]
      = some { wsSingle with walkers := [⟨(0, 1), (0, 0), (0, 1), false⟩] } := by
    norm_num [Walkers.updateModel, taskGroups, walkerTask, taskChildren, taskTurned,
      taskMoved, taskSampled, Walker.update, Walker.next_position, Walker.turn,
      wrap, wrapX, wrapY, samplePos, f32AsU32, map, avg, rollValue, wsSingle,
      blackImage, randA, Walker.new]
  exact ⟨⟨h1, h2⟩, tick_population_count wsSingle (blackImage 100 100) [randA] _ h1 h2⟩

/-- Claim C9: an offspring is cloned (alive) before the sampling step; when
division fires and the frame-feedback sample then kills the parent, the
returned group is `[child, dead parent]` and the per-group dead-filter keeps
exactly the child — the parent's death never removes its child. -/
theorem offspring_survives_parent_death (ws : Walkers) (img : Image) (r : Rand)
    (w0 : Walker)
    (hdead : w0.dead = false)
    (himg : 0 < img.width ∧ 0 < img.height)
    (hdiv : rollValue r.divRoll < ws.division_chance)
    (hkill : ws.kill_threshold ≤
      avg (img.pix
        (samplePos ws.width ws.height img.width img.height
          (taskMoved ws (taskTurned ws r w0)).position).1
        (samplePos ws.width ws.height img.width img.height
          (taskMoved ws (taskTurned ws r w0)).position).2)) :
    walkerTask ws img r w0 =
      some [(taskTurned ws r w0).turn r.divCos r.divSin,
            { taskMoved ws (taskTurned ws r w0) with dead := true }] ∧
    ((taskTurned ws r w0).turn r.divCos r.divSin).dead = false ∧
    (List.filter (fun w => !w.dead)
        [(taskTurned ws r w0).turn r.divCos r.divSin,
         { taskMoved ws (taskTurned ws r w0) with dead := true }])
      = [(taskTurned ws r w0).turn r.divCos r.divSin] := by
  have hchild : ((taskTurned ws r w0).turn r.divCos r.divSin).dead = false := by
    rw [turn_dead, taskTurned_dead]
    exact hdead
  refine ⟨?_, hchild, ?_⟩
  · rw [walkerTask_eq ws img r w0 himg]
    unfold taskChildren
    rw [if_pos hdiv]
    simp only [taskSampled]
    rw [if_pos hkill]
    rfl
  · simp [List.filter_cons, hchild]

/-- Claim C9 witness: `offspring_survives_parent_death` with division certain,
threshold 85 and an all-red frame (proxy 85): the parent dies, the child is
installed. -/
theorem offspring_survives_parent_death_witness :
    ((Walker.new (0, 0) (0, 1)).dead = false ∧
     (0 < (redImage 100 100).width ∧ 0 < (redImage 100 100).height) ∧
     rollValue randA.divRoll < wsDivide.division_chance ∧
     wsDivide.kill_threshold ≤
       avg ((redImage 100 100).pix
         (samplePos wsDivide.width wsDivide.height (redImage 100 100).width
           (redImage 100 100).height
           (taskMoved wsDivide (taskTurned wsDivide randA (Walker.new (0, 0) (0, 1)))).position).1
         (samplePos wsDivide.width wsDivide.height (redImage 100 100).width
           (redImage 100 100).height
           (taskMoved wsDivide (taskTurned wsDivide randA (Walker.new (0, 0) (0, 1)))).position).2)) ∧
    (walkerTask wsDivide (redImage 100 100) randA (Walker.new (0, 0) (0, 1)) =
       some [(taskTurned wsDivide randA (Walker.new (0, 0) (0, 1))).turn
               randA.divCos randA.divSin,
             { taskMoved wsDivide (taskTurned wsDivide randA (Walker.new (0, 0) (0, 1)))
                 with dead := true }] ∧
     ((taskTurned wsDivide randA (Walker.new (0, 0) (0, 1))).turn
        randA.divCos randA.divSin).dead = false ∧
     (List.filter (fun w => !w.dead)
         [(taskTurned wsDivide randA (Walker.new (0, 0) (0, 1))).turn
            randA.divCos randA.divSin,
          { taskMoved wsDivide (taskTurned wsDivide randA (Walker.new (0, 0) (0, 1)))
              with dead := true }])
       = [(taskTurned wsDivide randA (Walker.new (0, 0) (0, 1))).turn
            randA.divCos randA.divSin]) := by
  have hdead : (Walker.new (0, 0) (0, 1)).dead = false := rfl
  have himg : 0 < (redImage 100 100).width ∧ 0 < (redImage 100 100).height := by
    constructor <;> norm_num [redImage]
  have hdiv : rollValue randA.divRoll < wsDivide.division_chance := by
    norm_num [rollValue, randA, wsDivide, wsSingle]
  have hkill : wsDivide.kill_threshold ≤
      avg ((redImage 100 100).pix
        (samplePos wsDivide.width wsDivide.height (redImage 100 100).width
          (redImage 100 100).height
          (taskMoved wsDivide (taskTurned wsDivide randA (Walker.new (0, 0) (0, 1)))).position).1
        (samplePos wsDivide.width wsDivide.height (redImage 100 100).width
          (redImage 100 100).height
          (taskMoved wsDivide (taskTurned wsDivide randA (Walker.new (0, 0) (0, 1)))).position).2) := by
    show (85 : Nat) ≤ avg ⟨255, 0, 0, 0⟩
    decide
  exact ⟨⟨hdead, himg, hdiv, hkill⟩,
    offspring_survives_parent_death wsDivide (redImage 100 100) randA
      (Walker.new (0, 0) (0, 1)) hdead himg hdiv hkill⟩

/-- Claim C2: on a zero-area frame buffer the code does not skip the tick —
there is no degeneracy guard.  Every worker thread panics (`img_width - 1`
underflows `u32` in a debug build; `get_pixel` is out of bounds on an empty
image in a release build) before sending, so with a non-empty population the
update never completes: it deadlocks at `rx.recv()` rather than acting as a
no-op. -/
theorem degenerate_buffer_no_guard (ws : Walkers) (img : Image) (rs : List Rand)
    (hdeg : img.width = 0 ∨ img.height = 0)
    (hne : ws.walkers.zip rs ≠ []) :
    ws.updateModel img rs = none ∧ runTick ws img rs = TickOutcome.hang := by
  obtain ⟨p, L, hL⟩ := List.exists_cons_of_ne_nil hne
  have hfail : walkerTask ws img p.2 p.1 = none := by
    unfold walkerTask
    rw [if_neg (by rcases hdeg with h | h <;> simp [h])]
  have hnone : taskGroups ws img (ws.walkers.zip rs) = none :=
    taskGroups_none ws img _ ⟨p, by rw [hL]; exact List.mem_cons_self p L, hfail⟩
  have hupd : ws.updateModel img rs = none := by
    unfold Walkers.updateModel
    rw [hnone]
  refine ⟨hupd, ?_⟩
  unfold runTick
  rw [hupd]

/-- Claim C2 witness: `degenerate_buffer_no_guard` with one walker and a
`0 × 0` frame. -/
theorem degenerate_buffer_no_guard_witness :
    ((blackImage 0 0).width = 0 ∧ wsSingle.walkers.zip [randA] ≠ []) ∧
    (wsSingle.updateModel (blackImage 0 0) [randA] = none ∧
     runTick wsSingle (blackImage 0 0) [randA] = TickOutcome.hang) := by
  have h1 : (blackImage 0 0).width = 0 := rfl
  have h2 : wsSingle.walkers.zip [randA] ≠ [] := by
    simp [wsSingle]
  exact ⟨⟨h1, h2⟩,
    degenerate_buffer_no_guard wsSingle (blackImage 0 0) [randA] (Or.inl h1) h2⟩

/-- Claim C8: a worker that fails to run to completion never reaches its
`send` (the channel send is the closure's last statement), so the collection
loop — which runs before any `join`, while the original sender endpoint is
still alive — blocks forever.  The tick is indeed never completed and no
partial population is installed, but the failure is NOT propagated as an
engine fault: the `join().expect(..)` path that would propagate it is
unreachable, and `update` hangs instead. -/
theorem task_failure_not_propagated (ws : Walkers) (img : Image) (rs : List Rand)
    (hfail : ∃ p ∈ ws.walkers.zip rs, walkerTask ws img p.2 p.1 = none) :
    runTick ws img rs = TickOutcome.hang ∧
    runTick ws img rs ≠ TickOutcome.fault := by
  have hnone : taskGroups ws img (ws.walkers.zip rs) = none :=
    taskGroups_none ws img _ hfail
  have hupd : ws.updateModel img rs = none := by
    unfold Walkers.updateModel
    rw [hnone]
  constructor
  · unfold runTick
    rw [hupd]
  · unfold runTick
    rw [hupd]
    intro hcon
    cases hcon

/-- Claim C8 witness: `task_failure_not_propagated` where the single worker
panics on a degenerate (`0 × 5`) frame: the tick hangs and no fault is
raised. -/
theorem task_failure_not_propagated_witness :
    (∃ p ∈ wsSingle.walkers.zip [randA],
        walkerTask wsSingle (blackImage 0 5) p.2 p.1 = none) ∧
    (runTick wsSingle (blackImage 0 5) [randA] = TickOutcome.hang ∧
     runTick wsSingle (blackImage 0 5) [randA] ≠ TickOutcome.fault) := by
  have hfail : ∃ p ∈ wsSingle.walkers.zip [randA],
      walkerTask wsSingle (blackImage 0 5) p.2 p.1 = none := by
    refine ⟨(Walker.new (0, 0) (0, 1), randA), ?_, rfl⟩
    simp [wsSingle]
  exact ⟨hfail,
    task_failure_not_propagated wsSingle (blackImage 0 5) [randA] hfail⟩

/-- Claim C6: a single walker at the canvas center with velocity `(0, 1)`,
`turn_chance = 0`, `division_chance = 0` and `speed = 1`, updated once with
any non-degenerate frame whose sampled pixel is below the kill threshold,
ends at position `(0, 1)` with `prev_position (0, 0)`, and the subsequent
render emits exactly the segment `(0, 0) → (0, 1)`. -/
theorem single_agent_scenario (ws : Walkers) (img : Image) (r : Rand)
    (hwalkers : ws.walkers = [Walker.new (0, 0) (0, 1)])
    (hturn : ws.turn_chance = 0)
    (hdiv : ws.division_chance = 0)
    (hspeed : ws.speed = 1)
    (hw : 0 < ws.width) (hh : 2 < ws.height)
    (himg : 0 < img.width ∧ 0 < img.height)
    (hbelow : avg (img.pix
        (samplePos ws.width ws.height img.width img.height ((0 : ℚ), (1 : ℚ))).1
        (samplePos ws.width ws.height img.width img.height ((0 : ℚ), (1 : ℚ))).2)
      < ws.kill_threshold) :
    ws.updateModel img [r]
      = some { ws with walkers := [⟨(0, 1), (0, 0), (0, 1), false⟩] } ∧
    Walkers.drawAll { ws with walkers := [⟨(0, 1), (0, 0), (0, 1), false⟩] }
      = [⟨(0, 0), (0, 1), ws.line_weight⟩] := by
  have hw0 : taskTurned ws r (Walker.new (0, 0) (0, 1)) = Walker.new (0, 0) (0, 1) := by
    unfold taskTurned
    rw [if_neg (by rw [hturn]; exact not_lt.mpr (rollValue_nonneg _))]
  have hch : taskChildren ws r (Walker.new (0, 0) (0, 1)) = [] := by
    unfold taskChildren
    rw [if_neg (by rw [hdiv]; exact not_lt.mpr (rollValue_nonneg _))]
  have hadv : (Walker.new (0, 0) (0, 1)).update ws.speed
      = (⟨(0, 1), (0, 0), (0, 1), false⟩ : Walker) := by
    rw [hspeed]
    simp only [Walker.update, Walker.new, Walker.next_position]
    norm_num
  have hwrap : wrap ws.width ws.height (⟨(0, 1), (0, 0), (0, 1), false⟩ : Walker)
      = (⟨(0, 1), (0, 0), (0, 1), false⟩ : Walker) := by
    unfold wrap
    rw [wrapX_mid ws.width _
        (by show ¬ (0 : ℚ) ≥ ws.width / 2; push_neg; linarith)
        (by show ¬ (0 : ℚ) ≤ -(ws.width / 2); push_neg; linarith)]
    rw [wrapY_mid ws.height _
        (by show ¬ (1 : ℚ) ≥ ws.height / 2; push_neg; linarith)
        (by show ¬ (1 : ℚ) ≤ -(ws.height / 2); push_neg; linarith)]
  have hmoved : taskMoved ws (Walker.new (0, 0) (0, 1))
      = (⟨(0, 1), (0, 0), (0, 1), false⟩ : Walker) := by
    unfold taskMoved
    rw [hadv, hwrap]
  have hsamp : taskSampled ws img (⟨(0, 1), (0, 0), (0, 1), false⟩ : Walker)
      = (⟨(0, 1), (0, 0), (0, 1), false⟩ : Walker) := by
    simp only [taskSampled]
    rw [if_neg (not_le.mpr hbelow)]
  have htask : walkerTask ws img r (Walker.new (0, 0) (0, 1))
      = some [(⟨(0, 1), (0, 0), (0, 1), false⟩ : Walker)] := by
    rw [walkerTask_eq ws img r _ himg, hw0, hch, hmoved, hsamp]
    rfl
  have hgroups : taskGroups ws img [(Walker.new (0, 0) (0, 1), r)]
      = some [[(⟨(0, 1), (0, 0), (0, 1), false⟩ : Walker)]] := by
    unfold taskGroups
    rw [htask]
    rfl
  constructor
  · unfold Walkers.updateModel
    rw [hwalkers]
    have hz : [Walker.new (0, 0) (0, 1)].zip [r] = [(Walker.new (0, 0) (0, 1), r)] := rfl
    rw [hz, hgroups]
    rfl
  · rfl

/-- Claim C6 witness: `single_agent_scenario` with the `wsSingle` fixture and
a `100 × 100` black frame. -/
theorem single_agent_scenario_witness :
    (wsSingle.walkers = [Walker.new (0, 0) (0, 1)] ∧
     wsSingle.turn_chance = 0 ∧ wsSingle.division_chance = 0 ∧ wsSingle.speed = 1 ∧
     (0 : ℚ) < wsSingle.width ∧ (2 : ℚ) < wsSingle.height ∧
     (0 < (blackImage 100 100).width ∧ 0 < (blackImage 100 100).height) ∧
     avg ((blackImage 100 100).pix
         (samplePos wsSingle.width wsSingle.height (blackImage 100 100).width
           (blackImage 100 100).height ((0 : ℚ), (1 : ℚ))).1
         (samplePos wsSingle.width wsSingle.height (blackImage 100 100).width
           (blackImage 100 100).height ((0 : ℚ), (1 : ℚ))).2)
       < wsSingle.kill_threshold) ∧
    (wsSingle.updateModel (blackImage 100 100) [randA]
       = some { wsSingle with walkers := [⟨(0, 1), (0, 0), (0, 1), false⟩] } ∧
     Walkers.drawAll { wsSingle with walkers := [⟨(0, 1), (0, 0), (0, 1), false⟩] }
       = [⟨(0, 0), (0, 1), wsSingle.line_weight⟩]) := by
  have hwalkers : wsSingle.walkers = [Walker.new (0, 0) (0, 1)] := rfl
  have hturn : wsSingle.turn_chance = 0 := rfl
  have hdiv : wsSingle.division_chance = 0 := rfl
  have hspeed : wsSingle.speed = 1 := rfl
  have hw : (0 : ℚ) < wsSingle.width := by norm_num [wsSingle]
  have hh : (2 : ℚ) < wsSingle.height := by norm_num [wsSingle]
  have himg : 0 < (blackImage 100 100).width ∧ 0 < (blackImage 100 100).height := by
    constructor <;> norm_num [blackImage]
  have hbelow : avg ((blackImage 100 100).pix
      (samplePos wsSingle.width wsSingle.height (blackImage 100 100).width
        (blackImage 100 100).height ((0 : ℚ), (1 : ℚ))).1
      (samplePos wsSingle.width wsSingle.height (blackImage 100 100).width
        (blackImage 100 100).height ((0 : ℚ), (1 : ℚ))).2)
      < wsSingle.kill_threshold := by
    show avg ⟨0, 0, 0, 0⟩ < 150
    decide
  exact ⟨⟨hwalkers, hturn, hdiv, hspeed, hw, hh, himg, hbelow⟩,
    single_agent_scenario wsSingle (blackImage 100 100) randA
      hwalkers hturn hdiv hspeed hw hh himg hbelow⟩

end Crystal
